import Mathlib

/-!
Shallow embedding of the core of the `nasdaq-stock-screener` ETL:
the indicator engine (`etl/calculations.py`) and the snapshot
reconciler (`update_stock_prices` in `etl/db_manager.py`).

Numeric values are modelled as rationals (`ℚ`); Python `None` is
`Option.none`; a Python dict that may lack a key is a structure of
`Option` fields.  The metrics store is abstracted as the prior-snapshot
lookup function that `get_latest_metrics_for_symbol` provides: during
one `update_stock_prices` batch the store is only read (all writes are
batched after the loop), so a fixed function `String → Option TickerSnapshot`
is a faithful model of the reads the loop performs.
-/

namespace StockScreener

/-- A historical bar as consumed by `process_ticker_data`: a dict that may
lack the `close` or `high` key.  The `date` key is carried but never read
by the core computation. -/
structure HistoricalBar where
  date : String
  close : Option ℚ
  high : Option ℚ
  deriving Repr, DecidableEq

/-- The dict returned by `process_ticker_data` (symbol and timestamp are
attached later by the caller). -/
structure TickerMetrics where
  lastPrice : ℚ
  sma150 : Option ℚ
  hi52w : Option ℚ
  pctVsSma150 : Option ℚ
  pctVs52w : Option ℚ
  deriving Repr, DecidableEq

/-- A persisted `ticker_metrics` row: every numeric column is nullable in
the schema, `updatedAt` is modelled as a logical timestamp. -/
structure TickerSnapshot where
  symbol : String
  lastPrice : Option ℚ
  sma150 : Option ℚ
  hi52w : Option ℚ
  pctVsSma150 : Option ℚ
  pctVs52w : Option ℚ
  updatedAt : Nat
  deriving Repr, DecidableEq

/-- One entry of the `price_updates` list handed to `update_stock_prices`:
a dict whose `symbol`, `lastPrice` and `priceDate` keys may be absent. -/
structure PriceUpdate where
  symbol : Option String
  lastPrice : Option ℚ
  priceDate : Option String
  deriving Repr, DecidableEq

/-- Source `calculate_sma(prices, window)`: `None` when the list is empty, shorter
than the window, or the window is not positive; otherwise
`sum(prices[-window:]) / window`. -/
def calculate_sma (prices : List ℚ) (window : ℤ) : Option ℚ :=
  if prices = [] ∨ (prices.length : ℤ) < window ∨ window ≤ 0 then none
  else some ((prices.drop (prices.length - window.toNat)).sum / (window : ℚ))

/-- Source `calculate_52_week_high(daily_high_prices)`: `None` on the empty list,
otherwise `max(daily_high_prices[-252:])`. -/
def calculate_52_week_high (daily_high_prices : List ℚ) : Option ℚ :=
  if daily_high_prices = [] then none
  else
    let relevant_prices := daily_high_prices.drop (daily_high_prices.length - 252)
    if relevant_prices = [] then none
    else relevant_prices.max?

/-- Source `calculate_percentage_change_vs_sma150(close_price, sma150)`: `None`
when the reference is `None` or zero, else `(close - sma150)/sma150*100`. -/
def calculate_percentage_change_vs_sma150 (close_price : ℚ) (sma150 : Option ℚ) :
    Option ℚ :=
  match sma150 with
  | none => none
  | some s => if s = 0 then none else some ((close_price - s) / s * 100)

/-- Source `calculate_percentage_change_vs_52w_high(close_price, high52w)`: `None`
when the reference is `None` or zero, else `(close - high)/high*100`. -/
def calculate_percentage_change_vs_52w_high (close_price : ℚ) (high52w : Option ℚ) :
    Option ℚ :=
  match high52w with
  | none => none
  | some h => if h = 0 then none else some ((close_price - h) / h * 100)

/-- Source `process_ticker_data(historical_data, current_close)`: `None` when the
history is empty or some bar lacks the `close` or `high` key (the
`all('close' in day and 'high' in day ...)` guard); otherwise the metrics
dict built from the bar closes and highs.  Under the guard every bar's
`close`/`high` is present, so `filterMap` extracts exactly those values
in order. -/
def process_ticker_data (historical_data : List HistoricalBar) (current_close : ℚ) :
    Option TickerMetrics :=
  if historical_data = [] then none
  else if ¬ historical_data.all (fun day => day.close.isSome && day.high.isSome) then none
  else
    let close_prices := historical_data.filterMap (fun day => day.close)
    let high_prices := historical_data.filterMap (fun day => day.high)
    let sma150 := calculate_sma close_prices 150
    let high_52w := calculate_52_week_high high_prices
    let pct_vs_sma150 := calculate_percentage_change_vs_sma150 current_close sma150
    let pct_vs_52w_high := calculate_percentage_change_vs_52w_high current_close high_52w
    some { lastPrice := current_close, sma150 := sma150, hi52w := high_52w,
           pctVsSma150 := pct_vs_sma150, pctVs52w := pct_vs_52w_high }

/-- Python truthiness of the `symbol` entry: `not symbol` holds when the
key is absent or the string is empty. -/
def falsy_symbol : Option String → Bool
  | none => true
  | some s => s = ""

/-- The guard of the `update_stock_prices` loop:
`not symbol or new_price is None` skips the entry. -/
def valid_update (update : PriceUpdate) : Bool :=
  !falsy_symbol update.symbol && update.lastPrice.isSome

/-- The body of the `update_stock_prices` loop for one entry of
`price_updates`: `none` when the entry is skipped by the guard, otherwise
the record appended to `records_to_store`.  `priors` is the
`get_latest_metrics_for_symbol` lookup, `now` the batch's
`now_timestamp`. -/
def update_one_price (priors : String → Option TickerSnapshot) (now : Nat)
    (update : PriceUpdate) : Option TickerSnapshot :=
  match update.symbol, update.lastPrice with
  | some symbol, some new_price =>
    if symbol = "" then none
    else
      match priors symbol with
      | some latest_record_for_symbol =>
        let sma150 := latest_record_for_symbol.sma150
        let pctVsSma150 : Option ℚ :=
          match sma150 with
          | some s => if s ≠ 0 then some ((new_price - s) / s * 100) else none
          | none => none
        match latest_record_for_symbol.hi52w with
        | some h =>
          let hi52w := if new_price > h then new_price else h
          let pctVs52w : Option ℚ :=
            if hi52w ≠ 0 then some ((new_price - hi52w) / hi52w * 100) else none
          some { symbol := symbol, lastPrice := some new_price, sma150 := sma150,
                 hi52w := some hi52w, pctVsSma150 := pctVsSma150,
                 pctVs52w := pctVs52w, updatedAt := now }
        | none =>
          some { symbol := symbol, lastPrice := some new_price, sma150 := sma150,
                 hi52w := none, pctVsSma150 := pctVsSma150,
                 pctVs52w := none, updatedAt := now }
      | none =>
        some { symbol := symbol, lastPrice := some new_price, sma150 := none,
               hi52w := some new_price, pctVsSma150 := none,
               pctVs52w := some 0, updatedAt := now }
  | _, _ => none

/-- Source `update_stock_prices(conn, price_updates)`: the list of records the
batch prepares and hands to `store_ticker_metrics` (skipped entries
contribute nothing; the store is only read during the loop). -/
def update_stock_prices (priors : String → Option TickerSnapshot) (now : Nat)
    (price_updates : List PriceUpdate) : List TickerSnapshot :=
  price_updates.filterMap (update_one_price priors now)

/-- Models `series.rolling(window=window).mean().iloc[-1]` for a pandas
series: the trailing-window mean when the window fits
(`1 ≤ window ≤ len`); `none` stands for the `NaN` pandas yields when the
last position has fewer than `window` observations. -/
def rolling_mean_last (series : List ℚ) (window : ℤ) : Option ℚ :=
  if 1 ≤ window ∧ window ≤ (series.length : ℤ) then
    some ((series.drop (series.length - window.toNat)).sum / (window : ℚ))
  else none

/-- Source `calculate_sma_pandas(series, window)`: `None` when the series is
shorter than the window, else the last value of the rolling mean
(`None` again when the series is empty, the `not sma.empty` check). -/
def calculate_sma_pandas (series : List ℚ) (window : ℤ) : Option ℚ :=
  if (series.length : ℤ) < window then none
  else if series = [] then none
  else rolling_mean_last series window

/-- Source `calculate_52_week_high_pandas(daily_high_series)`: `None` on an empty
series, otherwise the max of the last 252 entries. -/
def calculate_52_week_high_pandas (daily_high_series : List ℚ) : Option ℚ :=
  if daily_high_series = [] then none
  else
    let relevant_series := daily_high_series.drop (daily_high_series.length - 252)
    if relevant_series = [] then none
    else relevant_series.max?

/-! ### Helper lemmas -/

/-- The seed is below a left fold of `max`. -/
lemma le_foldl_max (a : ℚ) (l : List ℚ) : a ≤ l.foldl max a := by
  induction l generalizing a with
  | nil => exact le_refl a
  | cons b t ih => exact le_trans (le_max_left a b) (ih (max a b))

/-- A left fold of `max` is the seed or one of the elements. -/
lemma foldl_max_mem (a : ℚ) (l : List ℚ) :
    l.foldl max a = a ∨ l.foldl max a ∈ l := by
  induction l generalizing a with
  | nil => exact Or.inl rfl
  | cons b t ih =>
    rcases ih (max a b) with hm | hm
    · rcases max_choice a b with hab | hab
      · exact Or.inl (by rw [List.foldl_cons, hm, hab])
      · exact Or.inr (by rw [List.foldl_cons, hm, hab]; exact List.mem_cons_self b t)
    · exact Or.inr (List.mem_cons_of_mem b (by rw [List.foldl_cons]; exact hm))

/-- Every element is below a left fold of `max`. -/
lemma foldl_max_ub (a : ℚ) (l : List ℚ) : ∀ x ∈ l, x ≤ l.foldl max a := by
  induction l generalizing a with
  | nil => intro x hx; cases hx
  | cons b t ih =>
    intro x hx
    rcases List.mem_cons.mp hx with rfl | hx
    · exact le_trans (le_max_right a x) (le_foldl_max (max a x) t)
    · exact ih (max a b) x hx

/-- The value `List.max?` of a non-empty list of rationals is its maximum. -/
lemma max?_spec {l : List ℚ} (h : l ≠ []) :
    ∃ m, l.max? = some m ∧ m ∈ l ∧ ∀ x ∈ l, x ≤ m := by
  obtain ⟨a, as, rfl⟩ := List.exists_cons_of_ne_nil h
  refine ⟨as.foldl max a, rfl, ?_, ?_⟩
  · rcases foldl_max_mem a as with hm | hm
    · rw [hm]; exact List.mem_cons_self a as
    · exact List.mem_cons_of_mem a hm
  · intro x hx
    rcases List.mem_cons.mp hx with rfl | hx
    · exact le_foldl_max x as
    · exact foldl_max_ub a as x hx

/-! ### C7: movingAverage contract -/

/-- C7: `calculate_sma` returns null when the list is empty, shorter than
the window, or the window is not positive; when `len(closes) ≥ window > 0`
it returns the arithmetic mean of the last `window` elements (the suffix
has exactly `window` elements and the result is its sum over its
length). -/
theorem calculate_sma_contract (prices : List ℚ) (window : ℤ) :
    ((prices = [] ∨ (prices.length : ℤ) < window ∨ window ≤ 0) →
      calculate_sma prices window = none) ∧
    (0 < window → window ≤ (prices.length : ℤ) →
      ((prices.drop (prices.length - window.toNat)).length : ℤ) = window ∧
      calculate_sma prices window =
        some ((prices.drop (prices.length - window.toNat)).sum /
          ((prices.drop (prices.length - window.toNat)).length : ℚ))) := by
  constructor
  · intro h
    simp only [calculate_sma, if_pos h]
  · intro hw hlen
    have hnat : window.toNat ≤ prices.length := by omega
    have hlendrop : (prices.drop (prices.length - window.toNat)).length
        = window.toNat := by
      rw [List.length_drop]
      omega
    have hcast : ((prices.drop (prices.length - window.toNat)).length : ℤ)
        = window := by
      rw [hlendrop]; omega
    refine ⟨hcast, ?_⟩
    have hguard : ¬ (prices = [] ∨ (prices.length : ℤ) < window ∨ window ≤ 0) := by
      push_neg
      refine ⟨?_, by omega, by omega⟩
      intro hnil
      subst hnil
      simp at hlen
      omega
    rw [calculate_sma, if_neg hguard]
    have hql : ((prices.drop (prices.length - window.toNat)).length : ℚ)
        = (window : ℚ) := by
      rw [hlendrop]
      have h1 : ((window.toNat : ℤ)) = window := Int.toNat_of_nonneg (by omega)
      exact_mod_cast congrArg (fun z : ℤ => (z : ℚ)) h1
    rw [hql]

/-! ### C8: trailingHigh contract -/

/-- C8: `calculate_52_week_high` returns null exactly on the empty list;
on a non-empty list it returns the maximum of the last
`min 252 (len highs)` elements, and when the list has at most 252 entries
that is the maximum of the whole list. -/
theorem calculate_52_week_high_contract (highs : List ℚ) :
    (highs = [] → calculate_52_week_high highs = none) ∧
    (highs ≠ [] → ∃ m, calculate_52_week_high highs = some m ∧
       m ∈ highs.drop (highs.length - min 252 highs.length) ∧
       ∀ x ∈ highs.drop (highs.length - min 252 highs.length), x ≤ m) ∧
    (highs ≠ [] → highs.length ≤ 252 → ∃ m, calculate_52_week_high highs = some m ∧
       m ∈ highs ∧ ∀ x ∈ highs, x ≤ m) := by
  have hmineq : highs.length - min 252 highs.length = highs.length - 252 := by omega
  have hmain : highs ≠ [] → ∃ m, calculate_52_week_high highs = some m ∧
      m ∈ highs.drop (highs.length - 252) ∧
      ∀ x ∈ highs.drop (highs.length - 252), x ≤ m := by
    intro h
    have hpos : 0 < highs.length := List.length_pos.mpr h
    have hsub : (highs.drop (highs.length - 252)).length = min 252 highs.length := by
      rw [List.length_drop]
      omega
    have hne : highs.drop (highs.length - 252) ≠ [] := by
      intro hnil
      rw [← List.length_eq_zero] at hnil
      omega
    obtain ⟨m, hm, hmem, hub⟩ := max?_spec hne
    refine ⟨m, ?_, hmem, hub⟩
    rw [calculate_52_week_high, if_neg h]
    simpa [hne] using hm
  refine ⟨fun h => by simp [calculate_52_week_high, h], ?_, ?_⟩
  · intro h
    rw [hmineq]
    exact hmain h
  · intro h h252
    obtain ⟨m, hm, hmem, hub⟩ := hmain h
    have hdrop : highs.drop (highs.length - 252) = highs := by
      have : highs.length - 252 = 0 := by omega
      rw [this, List.drop_zero]
    rw [hdrop] at hmem hub
    exact ⟨m, hm, hmem, hub⟩

/-! ### C5: deriveSnapshot contract -/

/-- When an optional projection is present on every element, `filterMap`
extracts exactly the projected values in order. -/
lemma filterMap_eq_map_getD {α : Type} (f : α → Option ℚ) (l : List α)
    (h : ∀ d ∈ l, (f d).isSome) :
    l.filterMap f = l.map (fun d => (f d).getD 0) := by
  induction l with
  | nil => rfl
  | cons a t ih =>
    obtain ⟨x, hx⟩ := Option.isSome_iff_exists.mp (h a (List.mem_cons_self a t))
    rw [List.filterMap_cons, List.map_cons, hx]
    simp only [Option.getD_some]
    rw [ih (fun d hd => h d (List.mem_cons_of_mem a hd))]

/-- C5: `process_ticker_data` returns null when the history is empty or
some bar is missing its close or its high; otherwise it returns the record
with `sma150 = calculate_sma closes 150`,
`hi52w = calculate_52_week_high highs`, the two percent deviations of the
current price against those references, and `lastPrice = currentPrice`. -/
theorem process_ticker_data_contract (hist : List HistoricalBar) (cp : ℚ) :
    (hist = [] → process_ticker_data hist cp = none) ∧
    ((∃ d ∈ hist, d.close = none ∨ d.high = none) →
      process_ticker_data hist cp = none) ∧
    (hist ≠ [] → (∀ d ∈ hist, d.close.isSome ∧ d.high.isSome) →
      process_ticker_data hist cp = some
        { lastPrice := cp,
          sma150 := calculate_sma (hist.map fun d => d.close.getD 0) 150,
          hi52w := calculate_52_week_high (hist.map fun d => d.high.getD 0),
          pctVsSma150 := calculate_percentage_change_vs_sma150 cp
            (calculate_sma (hist.map fun d => d.close.getD 0) 150),
          pctVs52w := calculate_percentage_change_vs_52w_high cp
            (calculate_52_week_high (hist.map fun d => d.high.getD 0)) }) := by
  refine ⟨fun h => by simp [process_ticker_data, h], ?_, ?_⟩
  · rintro ⟨d, hd, hmiss⟩
    have hall : ¬ hist.all (fun day => day.close.isSome && day.high.isSome) := by
      rw [List.all_eq_true]
      intro hfor
      have := hfor d hd
      rcases hmiss with hc | hc <;> simp [hc] at this
    rcases eq_or_ne hist [] with rfl | hne
    · cases hd
    · simp [process_ticker_data, hne, hall]
  · intro hne hall
    have hall' : hist.all (fun day => day.close.isSome && day.high.isSome) := by
      rw [List.all_eq_true]
      intro d hd
      have := hall d hd
      simp [this.1, this.2]
    rw [process_ticker_data, if_neg hne, if_neg (by rw [hall']; simp)]
    rw [filterMap_eq_map_getD (fun d => d.close) hist (fun d hd => (hall d hd).1),
        filterMap_eq_map_getD (fun d => d.high) hist (fun d hd => (hall d hd).2)]

/-! ### C1, C2, C9: the reconciler branches -/

/-- The source's strict-comparison ratchet `new_price > hi52w` installs
exactly `max hi52w new_price`. -/
lemma ratchet_eq_max (h p : ℚ) : (if p > h then p else h) = max h p := by
  rcases le_or_lt p h with hle | hlt
  · rw [if_neg (not_lt.mpr hle), max_eq_left hle]
  · rw [if_pos hlt, max_eq_right hlt.le]

/-- C1: for a price update whose symbol has a prior snapshot (with a
non-null stored 52-week high `h`), `update_stock_prices` produces exactly
the record that copies `sma150` forward, ratchets `hi52w` to
`max h price`, recomputes both percent deviations against the copied
`sma150` and the ratcheted high, and sets `lastPrice` to the new price. -/
theorem tracked_reconciliation (priors : String → Option TickerSnapshot) (now : Nat)
    (symbol : String) (price h : ℚ) (pd : Option String) (prior : TickerSnapshot)
    (hsym : ¬ symbol = "") (hp : priors symbol = some prior)
    (hhi : prior.hi52w = some h) :
    update_stock_prices priors now [⟨some symbol, some price, pd⟩] =
      [{ symbol := symbol, lastPrice := some price, sma150 := prior.sma150,
         hi52w := some (max h price),
         pctVsSma150 := calculate_percentage_change_vs_sma150 price prior.sma150,
         pctVs52w := calculate_percentage_change_vs_52w_high price (some (max h price)),
         updatedAt := now }] := by
  unfold update_stock_prices
  rw [List.filterMap_cons, List.filterMap_nil]
  have hone : update_one_price priors now ⟨some symbol, some price, pd⟩ =
      some { symbol := symbol, lastPrice := some price, sma150 := prior.sma150,
             hi52w := some (max h price),
             pctVsSma150 := calculate_percentage_change_vs_sma150 price prior.sma150,
             pctVs52w := calculate_percentage_change_vs_52w_high price
               (some (max h price)),
             updatedAt := now } := by
    simp only [update_one_price, hp, hhi, if_neg hsym, ratchet_eq_max]
    cases hsma : prior.sma150 <;>
      simp [calculate_percentage_change_vs_sma150,
        calculate_percentage_change_vs_52w_high, ite_not]
  rw [hone]

/-- C2: for a price update whose symbol has no prior snapshot,
`update_stock_prices` emits exactly one record with
`lastPrice = price`, `sma150 = null`, `hi52w = price`,
`pctVsSma150 = null`, `pctVs52w = 0`. -/
theorem untracked_reconciliation (priors : String → Option TickerSnapshot)
    (now : Nat) (symbol : String) (price : ℚ) (pd : Option String)
    (hsym : ¬ symbol = "") (hp : priors symbol = none) :
    update_stock_prices priors now [⟨some symbol, some price, pd⟩] =
      [{ symbol := symbol, lastPrice := some price, sma150 := none,
         hi52w := some price, pctVsSma150 := none, pctVs52w := some 0,
         updatedAt := now }] := by
  unfold update_stock_prices
  rw [List.filterMap_cons, List.filterMap_nil]
  have hone : update_one_price priors now ⟨some symbol, some price, pd⟩ =
      some { symbol := symbol, lastPrice := some price, sma150 := none,
             hi52w := some price, pctVsSma150 := none, pctVs52w := some 0,
             updatedAt := now } := by
    simp only [update_one_price, hp, if_neg hsym]
  rw [hone]

/-- C9: when the prior snapshot exists but its stored 52-week high is
null, the reconciler emits a record whose `hi52w` and `pctVs52w` are both
null, whatever the new price is. -/
theorem null_prior_high_preserved (priors : String → Option TickerSnapshot)
    (now : Nat) (symbol : String) (price : ℚ) (pd : Option String)
    (prior : TickerSnapshot)
    (hsym : ¬ symbol = "") (hp : priors symbol = some prior)
    (hhi : prior.hi52w = none) :
    ∃ r, update_stock_prices priors now [⟨some symbol, some price, pd⟩] = [r] ∧
      r.hi52w = none ∧ r.pctVs52w = none := by
  refine ⟨{ symbol := symbol, lastPrice := some price, sma150 := prior.sma150,
            hi52w := none,
            pctVsSma150 := calculate_percentage_change_vs_sma150 price prior.sma150,
            pctVs52w := none, updatedAt := now }, ?_, rfl, rfl⟩
  unfold update_stock_prices
  rw [List.filterMap_cons, List.filterMap_nil]
  have hone : update_one_price priors now ⟨some symbol, some price, pd⟩ =
      some { symbol := symbol, lastPrice := some price, sma150 := prior.sma150,
             hi52w := none,
             pctVsSma150 := calculate_percentage_change_vs_sma150 price prior.sma150,
             pctVs52w := none, updatedAt := now } := by
    simp only [update_one_price, hp, hhi, if_neg hsym]
    cases hsma : prior.sma150 <;>
      simp [calculate_percentage_change_vs_sma150, ite_not]
  rw [hone]

/-! ### C3: ratchet monotonicity across successive reconciliations -/

/-- One self-feeding reconciliation step: the snapshot just produced is
the prior that `get_latest_metrics_for_symbol` returns for its own symbol
at the next `update_stock_prices` call; an update the guard skips leaves
the stored snapshot unchanged. -/
def reconcile_step (now : Nat) (s : TickerSnapshot) (price : ℚ) : TickerSnapshot :=
  match update_one_price (fun sym => if sym = s.symbol then some s else none) now
      ⟨some s.symbol, some price, none⟩ with
  | some r => r
  | none => s

/-- The successive snapshots of one symbol produced by feeding each
reconciliation's output back as the next step's prior. -/
def reconcile_seq (now : Nat) (s : TickerSnapshot) (prices : List ℚ) :
    List TickerSnapshot :=
  prices.scanl (reconcile_step now) s

/-- A scan starts with its seed. -/
lemma head?_scanl {α β : Type} (f : α → β → α) (a : α) (l : List β) :
    (l.scanl f a).head? = some a := by
  cases l <;> simp [List.scanl_nil, List.scanl_cons]

/-- A scan whose step preserves an invariant and relates each state to the
next is a chain. -/
lemma chain'_scanl {α β : Type} (R : α → α → Prop) (Inv : α → Prop)
    (f : α → β → α)
    (hstep : ∀ a b, Inv a → R a (f a b) ∧ Inv (f a b)) :
    ∀ (l : List β) (a : α), Inv a → (l.scanl f a).Chain' R := by
  intro l
  induction l with
  | nil =>
    intro a _
    simp [List.scanl_nil]
  | cons b t ih =>
    intro a ha
    rw [List.scanl_cons, List.singleton_append, List.chain'_cons']
    obtain ⟨hR, hInv⟩ := hstep a b ha
    refine ⟨?_, ih (f a b) hInv⟩
    intro y hy
    rw [head?_scanl, Option.mem_def, Option.some_inj] at hy
    rw [← hy]
    exact hR

/-- One reconciliation step keeps a non-null `hi52w` non-null and never
decreases it. -/
lemma reconcile_step_hi (now : Nat) (t : TickerSnapshot) (p x : ℚ)
    (hx : t.hi52w = some x) :
    ∃ y, (reconcile_step now t p).hi52w = some y ∧ x ≤ y := by
  by_cases hs : t.symbol = ""
  · refine ⟨x, ?_, le_refl x⟩
    simp only [reconcile_step, update_one_price, if_pos hs]
    exact hx
  · refine ⟨max x p, ?_, le_max_left x p⟩
    simp [reconcile_step, update_one_price, if_neg hs, hx, ratchet_eq_max]

/-- C3: along any sequence of successive reconciliations of one symbol
(each step's output snapshot is the next step's prior), once `hi52w` is
non-null it stays non-null and is non-decreasing between every pair of
consecutive snapshots. -/
theorem hi52w_ratchet_monotone (now : Nat) (s : TickerSnapshot) (h : ℚ)
    (prices : List ℚ) (hhi : s.hi52w = some h) :
    (reconcile_seq now s prices).Chain'
      (fun a b => ∃ x y, a.hi52w = some x ∧ b.hi52w = some y ∧ x ≤ y) := by
  refine chain'_scanl _ (fun t => ∃ x, t.hi52w = some x) (reconcile_step now)
    ?_ prices s ⟨h, hhi⟩
  rintro a p ⟨x, hx⟩
  obtain ⟨y, hy, hxy⟩ := reconcile_step_hi now a p x hx
  exact ⟨⟨x, y, hx, hy, hxy⟩, ⟨y, hy⟩⟩

/-! ### C4: derived-percentage invariant -/

/-- The engine's percent-vs-SMA is null exactly when its reference is null
or zero. -/
lemma pct_sma_none_iff (cp : ℚ) (o : Option ℚ) :
    calculate_percentage_change_vs_sma150 cp o = none ↔ o = none ∨ o = some 0 := by
  cases o with
  | none => simp [calculate_percentage_change_vs_sma150]
  | some s =>
    by_cases hs : s = 0 <;> simp [calculate_percentage_change_vs_sma150, hs]

/-- The engine's percent-vs-high is null exactly when its reference is
null or zero. -/
lemma pct_52w_none_iff (cp : ℚ) (o : Option ℚ) :
    calculate_percentage_change_vs_52w_high cp o = none ↔ o = none ∨ o = some 0 := by
  cases o with
  | none => simp [calculate_percentage_change_vs_52w_high]
  | some h =>
    by_cases hh : h = 0 <;> simp [calculate_percentage_change_vs_52w_high, hh]

/-- C4, counterexample: the claimed invariant "`pctVs52w` is null iff
`hi52w` is null or zero" fails on a reconciliation output: an untracked
symbol observed at price `0` yields `hi52w = 0` with `pctVs52w = 0`
(non-null). -/
theorem derived_percentage_invariant_cex :
    ¬ (∀ (priors : String → Option TickerSnapshot) (now : Nat)
        (u : PriceUpdate) (r : TickerSnapshot),
        update_one_price priors now u = some r →
        (r.pctVs52w = none ↔ r.hi52w = none ∨ r.hi52w = some 0)) := by
  intro hcl
  have hval := hcl (fun _ => none) 0 ⟨some "X", some 0, none⟩
      { symbol := "X", lastPrice := some 0, sma150 := none, hi52w := some 0,
        pctVsSma150 := none, pctVs52w := some 0, updatedAt := 0 } (by decide)
  simp at hval

/-- C4, amended: `pctVsSma150` is null iff `sma150` is null or zero in
every snapshot the core produces; `pctVs52w` is null iff `hi52w` is null
or zero in every full-derivation snapshot and in every reconciliation
snapshot except the untracked branch fed a zero price, which emits
`hi52w = 0` with `pctVs52w = 0`. -/
theorem derived_percentage_invariant_amended :
    (∀ (hist : List HistoricalBar) (cp : ℚ) (m : TickerMetrics),
      process_ticker_data hist cp = some m →
      ((m.pctVsSma150 = none ↔ m.sma150 = none ∨ m.sma150 = some 0) ∧
       (m.pctVs52w = none ↔ m.hi52w = none ∨ m.hi52w = some 0))) ∧
    (∀ (priors : String → Option TickerSnapshot) (now : Nat)
       (u : PriceUpdate) (r : TickerSnapshot),
      update_one_price priors now u = some r →
      ((r.pctVsSma150 = none ↔ r.sma150 = none ∨ r.sma150 = some 0) ∧
       (((∃ s p0, u.symbol = some s ∧ priors s = some p0) ∨ u.lastPrice ≠ some 0) →
         (r.pctVs52w = none ↔ r.hi52w = none ∨ r.hi52w = some 0)))) := by
  constructor
  · intro hist cp m hm
    rw [process_ticker_data] at hm
    split at hm
    · exact absurd hm (by simp)
    · split at hm
      · exact absurd hm (by simp)
      · simp only [Option.some_inj] at hm
        subst hm
        exact ⟨pct_sma_none_iff cp _, pct_52w_none_iff cp _⟩
  · intro priors now u r hr
    rcases u with ⟨os, op, opd⟩
    cases os with
    | none => exact absurd hr (by simp [update_one_price])
    | some s =>
      cases op with
      | none => exact absurd hr (by simp [update_one_price])
      | some p =>
        by_cases hs : s = ""
        · exact absurd hr (by simp [update_one_price, hs])
        · simp only [update_one_price, if_neg hs] at hr
          cases hprior : priors s with
          | none =>
            simp only [hprior, Option.some_inj] at hr
            subst hr
            constructor
            · simp
            · rintro (⟨s', p0, hs', hp0⟩ | hpz)
              · rw [Option.some_inj] at hs'
                subst hs'
                rw [hprior] at hp0
                cases hp0
              · have hp : p ≠ 0 := fun hc => hpz (by rw [hc])
                simp [hp]
          | some prior =>
            cases hhi : prior.hi52w with
            | none =>
              simp only [hprior, hhi, Option.some_inj] at hr
              subst hr
              refine ⟨?_, fun _ => by simp⟩
              cases hsma : prior.sma150 with
              | none => simp
              | some v => by_cases hv : v = 0 <;> simp [hv, ite_not]
            | some h =>
              simp only [hprior, hhi, Option.some_inj] at hr
              subst hr
              constructor
              · cases hsma : prior.sma150 with
                | none => simp
                | some v => by_cases hv : v = 0 <;> simp [hv, ite_not]
              · intro _
                by_cases hz : (if p > h then p else h) = 0 <;> simp [hz, ite_not]

/-! ### C6: invalid observations are skipped, valid ones emit one record -/

/-- The loop body emits a record exactly for the entries its guard
accepts. -/
lemma update_one_price_isSome (priors : String → Option TickerSnapshot)
    (now : Nat) (u : PriceUpdate) :
    (update_one_price priors now u).isSome = valid_update u := by
  rcases u with ⟨os, op, opd⟩
  cases os with
  | none => simp [update_one_price, valid_update, falsy_symbol]
  | some s =>
    cases op with
    | none => simp [update_one_price, valid_update, falsy_symbol]
    | some p =>
      by_cases hs : s = ""
      · simp [update_one_price, valid_update, falsy_symbol, hs]
      · cases hprior : priors s with
        | none =>
          simp [update_one_price, valid_update, falsy_symbol, hs, hprior]
        | some prior =>
          cases hhi : prior.hi52w <;>
            simp [update_one_price, valid_update, falsy_symbol, hs, hprior, hhi]

/-- The batch prepares exactly one record per accepted entry. -/
lemma update_stock_prices_length (priors : String → Option TickerSnapshot)
    (now : Nat) :
    ∀ l : List PriceUpdate,
      (update_stock_prices priors now l).length = (l.filter valid_update).length := by
  intro l
  induction l with
  | nil => rfl
  | cons a t ih =>
    rw [update_stock_prices] at ih ⊢
    cases hv : valid_update a
    · have hnone : update_one_price priors now a = none := by
        have h := update_one_price_isSome priors now a
        rw [hv] at h
        exact Option.not_isSome_iff_eq_none.mp (by simp [h])
      simp [List.filterMap_cons, List.filter_cons, hnone, hv, ih]
    · obtain ⟨r, hr⟩ := Option.isSome_iff_exists.mp
        (by rw [update_one_price_isSome priors now a]; exact hv)
      simp [List.filterMap_cons, List.filter_cons, hr, hv, ih]

/-- C6: an update with a missing (or empty) symbol or a missing price
produces no record; a valid update produces exactly one; the batch
output has one record per valid update (invalid ones do not abort it);
a batch of only invalid updates yields an empty output. -/
theorem invalid_observation_handling (priors : String → Option TickerSnapshot)
    (now : Nat) (updates : List PriceUpdate) :
    (∀ u, valid_update u = false → update_one_price priors now u = none) ∧
    (∀ u, valid_update u = true → ∃ r, update_one_price priors now u = some r) ∧
    (update_stock_prices priors now updates).length =
      (updates.filter valid_update).length ∧
    ((∀ u ∈ updates, valid_update u = false) →
      update_stock_prices priors now updates = []) := by
  refine ⟨?_, ?_, update_stock_prices_length priors now updates, ?_⟩
  · intro u hval
    have h := update_one_price_isSome priors now u
    rw [hval] at h
    exact Option.not_isSome_iff_eq_none.mp (by simp [h])
  · intro u hval
    exact Option.isSome_iff_exists.mp
      (by rw [update_one_price_isSome priors now u]; exact hval)
  · intro hall
    have hfil : updates.filter valid_update = [] := by
      rw [List.filter_eq_nil_iff]
      intro a ha
      simp [hall a ha]
    have hlen := update_stock_prices_length priors now updates
    rw [hfil] at hlen
    exact List.length_eq_zero.mp hlen

/-! ### C10: list/pandas agreement -/

/-- C10: on the inputs where the list versions are defined (a positive
window that fits, a non-empty list of highs), the pandas variants compute
the same values as the plain list versions. -/
theorem list_pandas_agreement (series : List ℚ) (window : ℤ) (highs : List ℚ) :
    (0 < window → window ≤ (series.length : ℤ) →
      calculate_sma_pandas series window = calculate_sma series window) ∧
    (highs ≠ [] →
      calculate_52_week_high_pandas highs = calculate_52_week_high highs) := by
  constructor
  · intro hw hlen
    have hne : series ≠ [] := by
      intro h
      subst h
      simp at hlen
      omega
    have hguard : ¬ ((series.length : ℤ) < window) := by omega
    rw [calculate_sma_pandas, if_neg hguard, if_neg hne, rolling_mean_last,
      if_pos ⟨by omega, hlen⟩, calculate_sma,
      if_neg (by push_neg; exact ⟨hne, by omega, by omega⟩)]
  · intro hne
    rw [calculate_52_week_high_pandas, calculate_52_week_high]

/-! ### Witnesses -/

/-- Witness for C7 at the docstring example. -/
theorem calculate_sma_contract_witness :
    calculate_sma [10, 11, 12, 13, 14] 3 = some 13 := by
  have h := (calculate_sma_contract [10, 11, 12, 13, 14] 3).2 (by decide) (by decide)
  rw [h.2]
  rw [Option.some_inj]
  norm_num [Int.toNat_ofNat, List.drop, List.sum_cons, List.sum_nil]

/-- Witness for C8 at the docstring example. -/
theorem calculate_52_week_high_contract_witness :
    ∃ m, calculate_52_week_high [10, 20, 5, 25, 15] = some m ∧
      m ∈ [(10 : ℚ), 20, 5, 25, 15] ∧ ∀ x ∈ [(10 : ℚ), 20, 5, 25, 15], x ≤ m :=
  (calculate_52_week_high_contract [10, 20, 5, 25, 15]).2.2 (by decide) (by decide)

/-- Witness for C5 on a one-bar history with both keys present. -/
theorem process_ticker_data_contract_witness :
    process_ticker_data [⟨"2024-01-02", some 1, some 2⟩] 3 = some
      { lastPrice := 3,
        sma150 := calculate_sma
          ([(⟨"2024-01-02", some 1, some 2⟩ : HistoricalBar)].map
            fun d => d.close.getD 0) 150,
        hi52w := calculate_52_week_high
          ([(⟨"2024-01-02", some 1, some 2⟩ : HistoricalBar)].map
            fun d => d.high.getD 0),
        pctVsSma150 := calculate_percentage_change_vs_sma150 3
          (calculate_sma ([(⟨"2024-01-02", some 1, some 2⟩ : HistoricalBar)].map
            fun d => d.close.getD 0) 150),
        pctVs52w := calculate_percentage_change_vs_52w_high 3
          (calculate_52_week_high
            ([(⟨"2024-01-02", some 1, some 2⟩ : HistoricalBar)].map
              fun d => d.high.getD 0)) } :=
  (process_ticker_data_contract [⟨"2024-01-02", some 1, some 2⟩] 3).2.2
    (by decide) (by decide)

/-- Witness for C1 at the spec's ratchet example: prior high `190`, prior
SMA `165`, new price `200`. -/
theorem tracked_reconciliation_witness :
    update_stock_prices
        (fun _ => some ⟨"A", some 170, some 165, some 190, none, none, 3⟩) 7
        [⟨some "A", some 200, none⟩] =
      [{ symbol := "A", lastPrice := some 200,
         sma150 := (⟨"A", some 170, some 165, some 190, none, none, 3⟩ :
           TickerSnapshot).sma150,
         hi52w := some (max 190 200),
         pctVsSma150 := calculate_percentage_change_vs_sma150 200
           (⟨"A", some 170, some 165, some 190, none, none, 3⟩ :
             TickerSnapshot).sma150,
         pctVs52w := calculate_percentage_change_vs_52w_high 200
           (some (max 190 200)),
         updatedAt := 7 }] :=
  tracked_reconciliation
    (fun _ => some ⟨"A", some 170, some 165, some 190, none, none, 3⟩) 7
    "A" 200 190 none ⟨"A", some 170, some 165, some 190, none, none, 3⟩
    (by decide) rfl rfl

/-- Witness for C2 at the spec's untracked example: price `150`, no
prior. -/
theorem untracked_reconciliation_witness :
    update_stock_prices (fun _ => none) 5 [⟨some "X", some 150, none⟩] =
      [{ symbol := "X", lastPrice := some 150, sma150 := none,
         hi52w := some 150, pctVsSma150 := none, pctVs52w := some 0,
         updatedAt := 5 }] :=
  untracked_reconciliation (fun _ => none) 5 "X" 150 none (by decide) rfl

/-- Witness for C3 on the spec's two-price sequence `200, 180` from a
prior high of `190`. -/
theorem hi52w_ratchet_monotone_witness :
    (reconcile_seq 0 ⟨"A", some 170, some 165, some 190, none, none, 3⟩
        [200, 180]).Chain'
      (fun a b => ∃ x y, a.hi52w = some x ∧ b.hi52w = some y ∧ x ≤ y) :=
  hi52w_ratchet_monotone 0 ⟨"A", some 170, some 165, some 190, none, none, 3⟩
    190 [200, 180] rfl

/-- Witness for the amended C4 at an untracked non-zero price `150`. -/
theorem derived_percentage_invariant_amended_witness :
    (some (0 : ℚ) = (none : Option ℚ)) ↔
      (some (150 : ℚ) = (none : Option ℚ) ∨ some (150 : ℚ) = some 0) :=
  (derived_percentage_invariant_amended.2 (fun _ => none) 9
      ⟨some "X", some 150, none⟩
      ⟨"X", some 150, none, some 150, none, some 0, 9⟩ (by decide)).2
    (Or.inr (by decide))

/-- Witness for C6 at the spec's example: a price-less observation yields
an empty output. -/
theorem invalid_observation_handling_witness :
    update_stock_prices (fun _ => none) 0 [⟨some "Y", none, none⟩] = [] :=
  (invalid_observation_handling (fun _ => none) 0 [⟨some "Y", none, none⟩]).2.2.2
    (by decide)

/-- Witness for C9: a tracked symbol with a null stored high keeps both
fields null at price `60`. -/
theorem null_prior_high_preserved_witness :
    ∃ r, update_stock_prices
        (fun _ => some ⟨"B", some 50, some 40, none, none, none, 2⟩) 4
        [⟨some "B", some 60, none⟩] = [r] ∧ r.hi52w = none ∧ r.pctVs52w = none :=
  null_prior_high_preserved
    (fun _ => some ⟨"B", some 50, some 40, none, none, none, 2⟩) 4
    "B" 60 none ⟨"B", some 50, some 40, none, none, none, 2⟩ (by decide) rfl rfl

/-- Witness for C10 on a fitting window and a non-empty high list. -/
theorem list_pandas_agreement_witness :
    calculate_sma_pandas [1, 2, 3] 2 = calculate_sma [1, 2, 3] 2 ∧
    calculate_52_week_high_pandas [4, 7] = calculate_52_week_high [4, 7] :=
  ⟨(list_pandas_agreement [1, 2, 3] 2 [4, 7]).1 (by decide) (by decide),
   (list_pandas_agreement [1, 2, 3] 2 [4, 7]).2 (by decide)⟩

end StockScreener
